import Mathlib

/-!
Shallow embedding of the salary-check application (src/app.py): the data
model (JobTitle, ExperienceBand, SalaryBand), the CSV seeding commands, the
list/filter queries and the salary-band creation route, together with proofs
of the specified properties.

Conventions.  The database is a triple of lists; Python form/CSV values are
`Option String` (`none` = absent).  Python truthiness of a string value is
`truthy` below (only `None` and `""` are falsy).  `int(...)` and `float(...)`
are modelled by `pythonInt?` and `pythonFloat?`, which accept the decimal
forms of the Python grammar (optional surrounding whitespace, optional sign,
digit groups with single interior underscores, fraction, exponent, and
`inf`/`infinity`/`nan` case-insensitively for floats); the numeric value of a
float literal is modelled exactly as a rational rather than IEEE-rounded,
which is adequate here since no property depends on rounding.
-/

namespace SalaryCheck

/-- Python `s.strip()`: drop whitespace from both ends. -/
def pyStrip (s : String) : String :=
  String.mk (((s.data.dropWhile Char.isWhitespace).reverse.dropWhile Char.isWhitespace).reverse)

/-- Python truthiness of an optional string: only `None` and `""` are falsy. -/
def truthy (o : Option String) : Bool :=
  match o with
  | none => false
  | some s => !(decide (s = ""))

/-- `o or d` for a Python optional string and a default string. -/
def pyOr (o : Option String) (d : String) : String :=
  match o with
  | none => d
  | some s => if s = "" then d else s

/-- `o or None` for a Python optional string. -/
def pyOrNone (o : Option String) : Option String :=
  match o with
  | none => none
  | some s => if s = "" then none else some s

/-- Consume `(["_"] digit | digit)*` (an underscore must be followed by a
digit); returns the digits read (underscores dropped) and the rest. -/
def digitsRest : List Char → List Char × List Char
  | [] => ([], [])
  | c :: cs =>
    if c.isDigit then
      let p := digitsRest cs
      (c :: p.1, p.2)
    else if c = '_' then
      match cs with
      | [] => ([], [c])
      | c2 :: cs2 =>
        if c2.isDigit then
          let p := digitsRest cs2
          (c2 :: p.1, p.2)
        else ([], c :: cs)
    else ([], c :: cs)

/-- Python `digitpart ::= digit (["_"] digit)*`; returns the digits
(underscores dropped) and the unconsumed rest, or `none` if the input does
not start with a digit. -/
def digitpart (l : List Char) : Option (List Char × List Char) :=
  match l with
  | [] => none
  | c :: cs =>
    if c.isDigit then
      let p := digitsRest cs
      some (c :: p.1, p.2)
    else none

/-- Numeric value of a list of decimal digits. -/
def digitsToNat (l : List Char) : Nat :=
  l.foldl (fun n c => 10 * n + (c.toNat - 48)) 0

/-- Python `int(s)` for a string argument: strip surrounding whitespace,
optional sign, then a digit part consuming the whole rest; `none` models the
`ValueError` raised otherwise. -/
def pythonInt? (s : String) : Option Int :=
  let l := (pyStrip s).data
  let sl : Int × List Char :=
    match l with
    | '+' :: r => (1, r)
    | '-' :: r => (-1, r)
    | _ => (1, l)
  match digitpart sl.2 with
  | some (d, []) => some (sl.1 * (digitsToNat d : Int))
  | _ => none

/-- Result of Python `float(...)`: a finite value (modelled exactly as a
rational), a signed infinity, or a NaN. -/
inductive PyFloat where
  | finite (q : ℚ)
  | infinity (neg : Bool)
  | nan
deriving DecidableEq

/-- Parse an optional exponent `("e"|"E") [sign] digitpart` that must consume
the whole input; empty input means exponent `0`. -/
def parseExponentPart (l : List Char) : Option Int :=
  match l with
  | [] => some 0
  | c :: cs =>
    if c = 'e' ∨ c = 'E' then
      let sl : Int × List Char :=
        match cs with
        | '+' :: r => (1, r)
        | '-' :: r => (-1, r)
        | _ => (1, cs)
      match digitpart sl.2 with
      | some (d, []) => some (sl.1 * (digitsToNat d : Int))
      | _ => none
    else none

/-- Value of a decimal literal with integer digits `ip`, fractional digits
`fp` and exponent `e`. -/
def ratOfParts (ip fp : List Char) (e : Int) : ℚ :=
  let m : Nat := digitsToNat ip * 10 ^ fp.length + digitsToNat fp
  if 0 ≤ e - (fp.length : Int) then
    ((m * 10 ^ (e - (fp.length : Int)).toNat : Nat) : ℚ)
  else
    mkRat (m : Int) (10 ^ ((fp.length : Int) - e).toNat)

/-- Parse the unsigned decimal part of a Python float literal
(`digitpart ["." [digitpart]] [exp]` or `"." digitpart [exp]`), consuming the
whole input. -/
def parseDecimalChars (l : List Char) : Option ℚ :=
  match digitpart l with
  | some (ip, rest) =>
    match rest with
    | '.' :: rest2 =>
      let fr : List Char × List Char :=
        match digitpart rest2 with
        | some (d, r) => (d, r)
        | none => ([], rest2)
      match parseExponentPart fr.2 with
      | some e => some (ratOfParts ip fr.1 e)
      | none => none
    | _ =>
      match parseExponentPart rest with
      | some e => some (ratOfParts ip [] e)
      | none => none
  | none =>
    match l with
    | '.' :: rest2 =>
      match digitpart rest2 with
      | some (d, rest3) =>
        match parseExponentPart rest3 with
        | some e => some (ratOfParts [] d e)
        | none => none
      | none => none
    | _ => none

/-- Python `float(s)`: strip surrounding whitespace, optional sign, then a
decimal literal or `inf`/`infinity`/`nan` (case-insensitive) consuming the
whole rest; `none` models the `ValueError` raised otherwise. -/
def pythonFloat? (s : String) : Option PyFloat :=
  let l := (pyStrip s).data
  let sl : Bool × List Char :=
    match l with
    | '+' :: r => (false, r)
    | '-' :: r => (true, r)
    | _ => (false, l)
  let lower := sl.2.map Char.toLower
  if lower = "inf".data ∨ lower = "infinity".data then some (.infinity sl.1)
  else if lower = "nan".data then some .nan
  else
    match parseDecimalChars sl.2 with
    | some q => some (.finite (if sl.1 then -q else q))
    | none => none

/-- Does a LIKE pattern match the empty text?  (Exactly when it consists of
`%` wildcards only.) -/
def likeEmpty : List Char → Bool
  | [] => true
  | c :: p => c = '%' && likeEmpty p

/-- One step of LIKE matching against a text whose first character is `d`:
`rest q` decides whether pattern `q` matches the text's tail.  `%` matches
any sequence (including none) of characters, `_` matches exactly one, and any
other pattern character matches case-insensitively (ILIKE). -/
def likeScan (rest : List Char → Bool) (d : Char) : List Char → Bool
  | [] => false
  | c :: p =>
    if c = '%' then likeScan rest d p || rest (c :: p)
    else if c = '_' then rest p
    else (c.toLower = d.toLower) && rest p

/-- SQL ILIKE matching of a pattern against a text (both as char lists). -/
def likeMatchT : List Char → List Char → Bool
  | [], p => likeEmpty p
  | d :: t, p => likeScan (likeMatchT t) d p

/-- `likeMatch p t` : the ILIKE pattern `p` matches the whole text `t`. -/
def likeMatch (p t : List Char) : Bool := likeMatchT t p

/-- `n` is a case-insensitive prefix of `h`. -/
def startsWithCI : List Char → List Char → Bool
  | [], _ => true
  | _ :: _, [] => false
  | c :: n, d :: h => (c.toLower = d.toLower) && startsWithCI n h

/-- `n` occurs in `h` as a case-insensitive contiguous substring. -/
def containsCI : List Char → List Char → Bool
  | n, [] => n.isEmpty
  | n, d :: h => startsWithCI n (d :: h) || containsCI n h

/-- Lexicographic order on char lists by code point (SQL binary collation);
`strLe a b` means `a` sorts no later than `b`. -/
def strLe : List Char → List Char → Bool
  | [], _ => true
  | _ :: _, [] => false
  | c :: a, d :: b => if c = d then strLe a b else decide (c.toNat < d.toNat)

/-- Lexicographic comparison by a primary and a secondary char-list key. -/
def lexLe (k1 k2 : α → List Char) (a b : α) : Bool :=
  if k1 a = k1 b then strLe (k2 a) (k2 b) else strLe (k1 a) (k1 b)

/-- Insert into a sorted list, keeping it sorted with respect to `le`. -/
def insertLe (le : α → α → Bool) (a : α) : List α → List α
  | [] => [a]
  | b :: l => if le a b then a :: b :: l else b :: insertLe le a l

/-- Insertion sort with respect to the Boolean comparator `le`; models the
storage engine's ORDER BY. -/
def sortBy (le : α → α → Bool) : List α → List α
  | [] => []
  | a :: l => insertLe le a (sortBy le l)

/-! ## Data model (src/app.py, Models section) -/

/-- `job_titles` row: surrogate integer id, unique required natural key
`canonical_title`, required `category` and `seniority_level`, optional
pipe-separated `aliases`. -/
structure JobTitle where
  id : Int
  canonical_title : String
  category : String
  seniority_level : String
  aliases : Option String
deriving DecidableEq

/-- `experience_bands` row: natural-key `code` as primary key, required
`label`, optional year bounds and descriptive fields. -/
structure ExperienceBand where
  code : String
  label : String
  min_years : Option Int
  max_years : Option Int
  default_seniority_level : Option String
  description : Option String
deriving DecidableEq

/-- `salary_bands` row.  `job_title_id` and `experience_band_code` are NOT
NULL foreign keys to `job_titles.id` and `experience_bands.code`.  Monetary
columns are nullable numerics (held as parsed Python floats), `last_updated`
is a date (held abstractly as a day number). -/
structure SalaryBand where
  id : Int
  job_title_id : Int
  experience_band_code : String
  location : String
  industry : Option String
  company_size_band : Option String
  currency : String
  salary_min : Option PyFloat
  salary_max : Option PyFloat
  salary_avg : Option PyFloat
  sample_size : Option Int
  source_type : Option String
  confidence_level : Option String
  last_updated : Nat
  notes : Option String
deriving DecidableEq

/-- The three tables of the schema. -/
structure DB where
  job_titles : List JobTitle
  experience_bands : List ExperienceBand
  salary_bands : List SalaryBand
deriving DecidableEq

/-- A Python exception escaping the route code uncaught. -/
inductive PyError where
  | valueError
  | integrityError
deriving DecidableEq

/-! ## Seeding commands (`seed-experience-bands`, `seed-job-titles`) -/

/-- A `csv.DictReader` row of `data/experience_bands.csv`: each named field
is an optional string (`row.get(...)`). -/
structure ExpBandRow where
  experience_band_code : Option String
  label : Option String
  min_years : Option String
  max_years : Option String
  default_seniority_level : Option String
  description : Option String
deriving DecidableEq

/-- A `csv.DictReader` row of `data/job_titles_malta_master.csv`; the first
three columns are accessed with `row[...]` and are therefore present. -/
structure JobTitleRow where
  canonical_title : String
  category : String
  seniority_level : String
  aliases : Option String
deriving DecidableEq

/-- `to_int` of `seed_experience_bands`: strip, empty → `None`, otherwise
`int(...)` with `ValueError` turned into `None`. -/
def to_int (val : Option String) : Option Int :=
  let v := pyStrip (val.getD "")
  if v = "" then none else pythonInt? v

/-- `(... or "").strip() or None`: strip an optional string and turn an empty
result into `None`. -/
def stripOrNone (o : Option String) : Option String :=
  let v := pyStrip (o.getD "")
  if v = "" then none else some v

/-- One loop iteration of `seed_experience_bands` on state (database, count
of newly inserted rows): skip on blank key, skip when `code` already exists
(`ExperienceBand.query.get(code)` sees earlier pending inserts through
autoflush), otherwise stage the new record and count it. -/
def seedExpStep (st : DB × Nat) (row : ExpBandRow) : DB × Nat :=
  let code := pyStrip (row.experience_band_code.getD "")
  if code = "" then st
  else if st.1.experience_bands.any (fun b => decide (b.code = code)) then st
  else
    let band : ExperienceBand :=
      { code := code
        label := pyStrip (row.label.getD "")
        min_years := to_int row.min_years
        max_years := to_int row.max_years
        default_seniority_level := stripOrNone row.default_seniority_level
        description := stripOrNone row.description }
    ({ st.1 with experience_bands := st.1.experience_bands ++ [band] }, st.2 + 1)

/-- `seed-experience-bands` over the rows of the source file; returns the
committed database and the reported count of newly inserted rows. -/
def seed_experience_bands (rows : List ExpBandRow) (db : DB) : DB × Nat :=
  rows.foldl seedExpStep (db, 0)

/-- Next surrogate id handed out by the storage engine for `job_titles`. -/
def nextJobTitleId (db : DB) : Int :=
  1 + db.job_titles.foldl (fun m j => max m j.id) 0

/-- One loop iteration of `seed_job_titles`: skip on blank key, skip when a
row with the same `canonical_title` exists
(`JobTitle.query.filter_by(...).first()`), otherwise stage the new record
and count it. -/
def seedJobStep (st : DB × Nat) (row : JobTitleRow) : DB × Nat :=
  let canonical_title := pyStrip row.canonical_title
  if canonical_title = "" then st
  else if st.1.job_titles.any (fun j => decide (j.canonical_title = canonical_title)) then st
  else
    let jt : JobTitle :=
      { id := nextJobTitleId st.1
        canonical_title := canonical_title
        category := pyStrip row.category
        seniority_level := pyStrip row.seniority_level
        aliases := stripOrNone row.aliases }
    ({ st.1 with job_titles := st.1.job_titles ++ [jt] }, st.2 + 1)

/-- `seed-job-titles` over the rows of the source file; returns the committed
database and the reported count of newly inserted rows. -/
def seed_job_titles (rows : List JobTitleRow) (db : DB) : DB × Nat :=
  rows.foldl seedJobStep (db, 0)

/-! ## Query layer -/

/-- ORDER BY key of `job_titles_list`: `(category, canonical_title)`. -/
def jtLe (a b : JobTitle) : Bool :=
  lexLe (fun j => j.category.data) (fun j => j.canonical_title.data) a b

/-- The `/job-titles` route: strip the `q` parameter; when non-empty, filter
with `canonical_title ILIKE '%' + q + '%'`; order by
`(category, canonical_title)`. -/
def job_titles_list (q : String) (db : DB) : List JobTitle :=
  let search := pyStrip q
  let rows :=
    if search = "" then db.job_titles
    else db.job_titles.filter
      (fun jt => likeMatch ("%" ++ search ++ "%").data jt.canonical_title.data)
  sortBy jtLe rows

/-- ORDER BY key of `salary_bands_list` on the joined rows:
`(job_title.canonical_title, salary_band.experience_band_code)`. -/
def sbLe (a b : SalaryBand × JobTitle × ExperienceBand) : Bool :=
  lexLe (fun t => t.2.1.canonical_title.data) (fun t => t.1.experience_band_code.data) a b

/-- `SalaryBand.query.join(JobTitle).join(ExperienceBand)`: inner join on the
declared foreign keys. -/
def joinSalaryBands (db : DB) : List (SalaryBand × JobTitle × ExperienceBand) :=
  db.salary_bands.flatMap (fun sb =>
    (db.job_titles.filter (fun jt => decide (jt.id = sb.job_title_id))).flatMap (fun jt =>
      (db.experience_bands.filter
          (fun eb => decide (eb.code = sb.experience_band_code))).map (fun eb => (sb, jt, eb))))

/-- The `/salary-bands` route: join, then apply an equality filter for each
of the two request parameters exactly when it is truthy (`int(job_title_id)`
raises `ValueError` on a non-numeric value), then order by
`(canonical_title, experience_band_code)`. -/
def salary_bands_list (job_title_id : Option String) (experience_code : Option String)
    (db : DB) : Except PyError (List (SalaryBand × JobTitle × ExperienceBand)) :=
  let joined := joinSalaryBands db
  match
    (if truthy job_title_id then
      match pythonInt? (job_title_id.getD "") with
      | none => Except.error PyError.valueError
      | some n => Except.ok (joined.filter (fun t => decide (t.1.job_title_id = n)))
    else Except.ok joined) with
  | .error e => .error e
  | .ok l =>
    let l2 :=
      if truthy experience_code then
        l.filter (fun t => decide (t.1.experience_band_code = experience_code.getD ""))
      else l
    .ok (sortBy sbLe l2)

/-! ## Mutation layer (`/salary-bands/new`, POST) -/

/-- The POST form of `/salary-bands/new`: `request.form.get(...)` for each
field (`none` = field absent). -/
structure CreateForm where
  job_title_id : Option String
  experience_band_code : Option String
  location : Option String
  industry : Option String
  company_size_band : Option String
  currency : Option String
  salary_min : Option String
  salary_max : Option String
  salary_avg : Option String
  sample_size : Option String
  source_type : Option String
  confidence_level : Option String
  notes : Option String
deriving DecidableEq

/-- Outcome of the create route: a validation failure re-rendering the form
with a flashed reason, a committed creation, or a Python exception
propagating uncaught out of the route.  Each outcome carries the database
as the route leaves it. -/
inductive CreateResult where
  | failure (msg : String) (db : DB)
  | success (db : DB)
  | raised (e : PyError) (db : DB)
deriving DecidableEq

/-- `make_decimal` of `salary_band_new`: falsy → `None`, otherwise
`float(...)` with `ValueError` turned into `None`. -/
def make_decimal (value : Option String) : Option PyFloat :=
  match value with
  | none => none
  | some s => if s = "" then none else pythonFloat? s

/-- `int(sample_size) if sample_size else None`: the `int(...)` call is not
guarded, so a truthy non-numeric value raises `ValueError`. -/
def parseSampleSize (sample_size : Option String) : Except PyError (Option Int) :=
  match sample_size with
  | none => .ok none
  | some s =>
    match pythonInt? s with
    | none => .error .valueError
    | some n => .ok (some n)

/-- Next surrogate id handed out by the storage engine for `salary_bands`. -/
def nextSalaryBandId (db : DB) : Int :=
  1 + db.salary_bands.foldl (fun m r => max m r.id) 0

/-- The `SalaryBand(...)` record the route constructs, given the parsed
`job_title_id` and `sample_size`; `last_updated` is
`datetime.date.today()`. -/
def mkSalaryBand (form : CreateForm) (today : Nat) (db : DB) (jtid : Int)
    (ss : Option Int) : SalaryBand :=
  { id := nextSalaryBandId db
    job_title_id := jtid
    experience_band_code := form.experience_band_code.getD ""
    location := pyOr form.location "Malta"
    industry := pyOrNone form.industry
    company_size_band := pyOrNone form.company_size_band
    currency := pyOr form.currency "EUR"
    salary_min := make_decimal (pyOrNone form.salary_min)
    salary_max := make_decimal (pyOrNone form.salary_max)
    salary_avg := make_decimal (pyOrNone form.salary_avg)
    sample_size := ss
    source_type := pyOrNone form.source_type
    confidence_level := pyOrNone form.confidence_level
    last_updated := today
    notes := pyOrNone form.notes }

/-- The POST branch of `salary_band_new`: required-field validation with the
flashed reason, then `int(job_title_id)` (unguarded), the lenient
`make_decimal` parses and the unguarded `int(sample_size)` while building the
record, then `db.session.add` + `db.session.commit`.  The commit enforces the
NOT NULL foreign keys declared on the `SalaryBand` model
(`job_titles.id`, `experience_bands.code`): a dangling reference is rejected
atomically as an `IntegrityError` that the route does not catch. -/
def salary_band_new (form : CreateForm) (today : Nat) (db : DB) : CreateResult :=
  if !truthy form.job_title_id || !truthy form.experience_band_code then
    .failure "Job title and experience band are required." db
  else
    match pythonInt? (form.job_title_id.getD "") with
    | none => .raised .valueError db
    | some jtid =>
      match parseSampleSize (pyOrNone form.sample_size) with
      | .error e => .raised e db
      | .ok ss =>
        if db.job_titles.any (fun j => decide (j.id = jtid)) &&
            db.experience_bands.any
              (fun b => decide (b.code = form.experience_band_code.getD "")) then
          .success { db with
            salary_bands := db.salary_bands ++ [mkSalaryBand form today db jtid ss] }
        else
          .raised .integrityError db

/-! ## Order and sorting lemmas -/

theorem char_toNat_inj {c d : Char} (h : c.toNat = d.toNat) : c = d := by
  cases c with
  | mk v hv =>
  cases d with
  | mk w hw =>
  simp only [Char.toNat] at h
  congr 1
  exact UInt32.toNat.inj h

theorem strLe_refl (a : List Char) : strLe a a = true := by
  induction a with
  | nil => rfl
  | cons c a ih => simp [strLe, ih]

theorem strLe_total (a b : List Char) : strLe a b = true ∨ strLe b a = true := by
  induction a generalizing b with
  | nil => exact Or.inl rfl
  | cons c a ih =>
    cases b with
    | nil => exact Or.inr rfl
    | cons d b =>
      by_cases hcd : c = d
      · subst hcd
        rcases ih b with h | h
        · exact Or.inl (by simp [strLe, h])
        · exact Or.inr (by simp [strLe, h])
      · have hne : c.toNat ≠ d.toNat := fun hn => hcd (char_toNat_inj hn)
        rcases Nat.lt_or_ge c.toNat d.toNat with h | h
        · exact Or.inl (by simp [strLe, hcd, h])
        · have hlt : d.toNat < c.toNat := lt_of_le_of_ne h (fun he => hne he.symm)
          have hdc : d ≠ c := fun he => hcd he.symm
          exact Or.inr (by simp [strLe, hdc, hlt])

theorem strLe_trans {a b c : List Char} (h1 : strLe a b = true) (h2 : strLe b c = true) :
    strLe a c = true := by
  induction a generalizing b c with
  | nil => rfl
  | cons x a ih =>
    cases b with
    | nil => simp [strLe] at h1
    | cons y b =>
      cases c with
      | nil => simp [strLe] at h2
      | cons z c =>
        by_cases hxy : x = y
        · subst hxy
          by_cases hyz : x = z
          · subst hyz
            simp only [strLe, if_pos rfl] at h1 h2 ⊢
            exact ih h1 h2
          · simp only [strLe, if_pos rfl] at h1
            simp only [strLe, if_neg hyz] at h2 ⊢
            exact h2
        · by_cases hyz : y = z
          · subst hyz
            simp only [strLe, if_neg hxy] at h1 ⊢
            exact h1
          · simp only [strLe, if_neg hxy] at h1
            simp only [strLe, if_neg hyz] at h2
            by_cases hxz : x = z
            · subst hxz
              have := Nat.lt_trans (of_decide_eq_true h1) (of_decide_eq_true h2)
              exact absurd this (Nat.lt_irrefl _)
            · simp only [strLe, if_neg hxz]
              exact decide_eq_true (Nat.lt_trans (of_decide_eq_true h1) (of_decide_eq_true h2))

theorem strLe_antisymm {a b : List Char} (h1 : strLe a b = true) (h2 : strLe b a = true) :
    a = b := by
  induction a generalizing b with
  | nil =>
    cases b with
    | nil => rfl
    | cons y b => simp [strLe] at h2
  | cons x a ih =>
    cases b with
    | nil => simp [strLe] at h1
    | cons y b =>
      by_cases hxy : x = y
      · subst hxy
        simp only [strLe, if_pos rfl] at h1 h2
        rw [ih h1 h2]
      · have hyx : y ≠ x := fun h => hxy h.symm
        simp only [strLe, if_neg hxy] at h1
        simp only [strLe, if_neg hyx] at h2
        have := Nat.lt_trans (of_decide_eq_true h1) (of_decide_eq_true h2)
        exact absurd this (Nat.lt_irrefl _)

theorem lexLe_total (k1 k2 : α → List Char) (a b : α) :
    lexLe k1 k2 a b = true ∨ lexLe k1 k2 b a = true := by
  unfold lexLe
  by_cases h : k1 a = k1 b
  · simp only [if_pos h, if_pos h.symm]
    exact strLe_total _ _
  · have h' : k1 b ≠ k1 a := fun he => h he.symm
    simp only [if_neg h, if_neg h']
    exact strLe_total _ _

theorem lexLe_trans (k1 k2 : α → List Char) {a b c : α}
    (h1 : lexLe k1 k2 a b = true) (h2 : lexLe k1 k2 b c = true) :
    lexLe k1 k2 a c = true := by
  unfold lexLe at h1 h2 ⊢
  by_cases hab : k1 a = k1 b
  · by_cases hbc : k1 b = k1 c
    · have hac : k1 a = k1 c := hab.trans hbc
      simp only [if_pos hab] at h1
      simp only [if_pos hbc] at h2
      simp only [if_pos hac]
      exact strLe_trans h1 h2
    · have hac : k1 a ≠ k1 c := fun he => hbc (hab.symm.trans he)
      simp only [if_neg hbc] at h2
      rw [if_neg hac, hab]
      exact h2
  · by_cases hbc : k1 b = k1 c
    · have hac : k1 a ≠ k1 c := fun he => hab (he.trans hbc.symm)
      simp only [if_neg hab] at h1
      rw [if_neg hac]
      exact hbc ▸ h1
    · simp only [if_neg hab] at h1
      simp only [if_neg hbc] at h2
      by_cases hac : k1 a = k1 c
      · have h2' : strLe (k1 b) (k1 a) = true := by rw [hac]; exact h2
        exact absurd (strLe_antisymm h1 h2') hab
      · simp only [if_neg hac]
        exact strLe_trans h1 h2

theorem mem_insertLe (le : α → α → Bool) (a x : α) (l : List α) :
    x ∈ insertLe le a l ↔ x = a ∨ x ∈ l := by
  induction l with
  | nil => simp [insertLe]
  | cons b l ih =>
    simp only [insertLe]
    split
    · simp [or_comm, or_assoc, eq_comm]
    · simp [ih]
      tauto

theorem insertLe_perm (le : α → α → Bool) (a : α) (l : List α) :
    (insertLe le a l).Perm (a :: l) := by
  induction l with
  | nil => simp [insertLe]
  | cons b l ih =>
    simp only [insertLe]
    split
    · exact List.Perm.refl _
    · exact (List.Perm.cons b ih).trans (List.Perm.swap a b l)

theorem sortBy_perm (le : α → α → Bool) (l : List α) : (sortBy le l).Perm l := by
  induction l with
  | nil => exact List.Perm.refl _
  | cons a l ih =>
    exact (insertLe_perm le a (sortBy le l)).trans (List.Perm.cons a ih)

theorem mem_sortBy (le : α → α → Bool) (x : α) (l : List α) :
    x ∈ sortBy le l ↔ x ∈ l :=
  (sortBy_perm le l).mem_iff

theorem pairwise_insertLe (le : α → α → Bool)
    (htrans : ∀ x y z, le x y = true → le y z = true → le x z = true)
    (htotal : ∀ x y, le x y = true ∨ le y x = true)
    (a : α) (l : List α) (hl : l.Pairwise (fun x y => le x y = true)) :
    (insertLe le a l).Pairwise (fun x y => le x y = true) := by
  induction l with
  | nil => simp [insertLe]
  | cons b l ih =>
    simp only [insertLe]
    rcases List.pairwise_cons.mp hl with ⟨hb, hl'⟩
    split
    · rename_i hab
      refine List.pairwise_cons.mpr ⟨?_, hl⟩
      intro x hx
      rcases List.mem_cons.mp hx with rfl | hx'
      · exact hab
      · exact htrans a b x hab (hb x hx')
    · rename_i hab
      have hba : le b a = true := by
        rcases htotal a b with h | h
        · exact absurd h hab
        · exact h
      refine List.pairwise_cons.mpr ⟨?_, ih hl'⟩
      intro x hx
      rcases (mem_insertLe le a x l).mp hx with rfl | hx'
      · exact hba
      · exact hb x hx'

theorem pairwise_sortBy (le : α → α → Bool)
    (htrans : ∀ x y z, le x y = true → le y z = true → le x z = true)
    (htotal : ∀ x y, le x y = true ∨ le y x = true)
    (l : List α) : (sortBy le l).Pairwise (fun x y => le x y = true) := by
  induction l with
  | nil => simp [sortBy]
  | cons a l ih => exact pairwise_insertLe le htrans htotal a (sortBy le l) ih

/-! ## ILIKE versus case-insensitive substring -/

/-- A lone `%` wildcard matches every text. -/
theorem likeMatch_wild (t : List Char) : likeMatch ['%'] t = true := by
  induction t with
  | nil => rfl
  | cons d t ih => simpa [likeMatch, likeMatchT, likeScan] using ih

/-- A wildcard-free pattern followed by `%` matches exactly the texts it is a
case-insensitive prefix of. -/
theorem likeMatch_append_wild (s : List Char) (hw : ∀ c ∈ s, c ≠ '%' ∧ c ≠ '_') (t : List Char) :
    likeMatch (s ++ ['%']) t = startsWithCI s t := by
  induction s generalizing t with
  | nil => simpa [startsWithCI] using likeMatch_wild t
  | cons c s ih =>
    obtain ⟨hc1, hc2⟩ := hw c (by simp)
    have hw' : ∀ x ∈ s, x ≠ '%' ∧ x ≠ '_' := fun x hx => hw x (by simp [hx])
    cases t with
    | nil => simp [likeMatch, likeMatchT, likeEmpty, startsWithCI, hc1]
    | cons d t =>
      simp only [likeMatch, likeMatchT, likeScan, List.cons_append, if_neg hc1, if_neg hc2,
        startsWithCI]
      congr 1
      exact ih hw' t

/-- For a wildcard-free `s`, the pattern `%s%` matches exactly the texts that
contain `s` as a case-insensitive substring. -/
theorem likeMatch_iff_containsCI (s : List Char) (hw : ∀ c ∈ s, c ≠ '%' ∧ c ≠ '_')
    (t : List Char) : likeMatch ('%' :: (s ++ ['%'])) t = containsCI s t := by
  induction t with
  | nil =>
    have hempty : likeEmpty (s ++ ['%']) = s.isEmpty := by
      cases s with
      | nil => rfl
      | cons c s => simp [likeEmpty, (hw c (by simp)).1]
    simpa [likeMatch, likeMatchT, likeEmpty, containsCI] using hempty
  | cons d t ih =>
    have hstep : likeMatch ('%' :: (s ++ ['%'])) (d :: t) =
        (likeMatch (s ++ ['%']) (d :: t) || likeMatch ('%' :: (s ++ ['%'])) t) := rfl
    rw [hstep, ih, likeMatch_append_wild s hw, containsCI]

/-! ## Seeding lemmas -/

theorem seedExpStep_bands_mono (st : DB × Nat) (r : ExpBandRow) {b : ExperienceBand}
    (hb : b ∈ st.1.experience_bands) : b ∈ (seedExpStep st r).1.experience_bands := by
  simp only [seedExpStep]
  split_ifs <;> simp [hb]

theorem seedExp_bands_mono (rows : List ExpBandRow) (st : DB × Nat) {b : ExperienceBand}
    (hb : b ∈ st.1.experience_bands) :
    b ∈ (rows.foldl seedExpStep st).1.experience_bands := by
  induction rows generalizing st with
  | nil => exact hb
  | cons r rest ih => exact ih _ (seedExpStep_bands_mono st r hb)

theorem seedExpStep_covers (st : DB × Nat) (r : ExpBandRow)
    (h : pyStrip (r.experience_band_code.getD "") ≠ "") :
    ∃ b ∈ (seedExpStep st r).1.experience_bands,
      b.code = pyStrip (r.experience_band_code.getD "") := by
  simp only [seedExpStep]
  split_ifs with hblank hex
  · exact absurd hblank h
  · simpa [List.any_eq_true] using hex
  · refine ⟨{ code := pyStrip (r.experience_band_code.getD "")
              label := pyStrip (r.label.getD "")
              min_years := to_int r.min_years
              max_years := to_int r.max_years
              default_seniority_level := stripOrNone r.default_seniority_level
              description := stripOrNone r.description }, ?_, rfl⟩
    simp

theorem seedExp_covers (rows : List ExpBandRow) (st : DB × Nat) :
    ∀ r ∈ rows, pyStrip (r.experience_band_code.getD "") ≠ "" →
      ∃ b ∈ (rows.foldl seedExpStep st).1.experience_bands,
        b.code = pyStrip (r.experience_band_code.getD "") := by
  induction rows generalizing st with
  | nil => simp
  | cons r rest ih =>
    intro x hx hkey
    rcases List.mem_cons.mp hx with rfl | hx'
    · obtain ⟨b, hb, hcode⟩ := seedExpStep_covers st x hkey
      exact ⟨b, seedExp_bands_mono rest _ hb, hcode⟩
    · exact ih (seedExpStep st r) x hx' hkey

theorem seedExp_noop (rows : List ExpBandRow) (db : DB) (n : Nat)
    (h : ∀ r ∈ rows, pyStrip (r.experience_band_code.getD "") = "" ∨
      ∃ b ∈ db.experience_bands, b.code = pyStrip (r.experience_band_code.getD "")) :
    rows.foldl seedExpStep (db, n) = (db, n) := by
  induction rows with
  | nil => rfl
  | cons r rest ih =>
    have hstep : seedExpStep (db, n) r = (db, n) := by
      rcases h r (by simp) with hb | hex
      · simp [seedExpStep, hb]
      · have hany : db.experience_bands.any
            (fun b => decide (b.code = pyStrip (r.experience_band_code.getD ""))) = true := by
          simpa [List.any_eq_true] using hex
        by_cases hb2 : pyStrip (r.experience_band_code.getD "") = ""
        · simp [seedExpStep, hb2]
        · simp [seedExpStep, hb2, hany]
    rw [List.foldl_cons, hstep]
    exact ih (fun r hr => h r (by simp [hr]))

theorem seedJobStep_titles_mono (st : DB × Nat) (r : JobTitleRow) {j : JobTitle}
    (hj : j ∈ st.1.job_titles) : j ∈ (seedJobStep st r).1.job_titles := by
  simp only [seedJobStep]
  split_ifs <;> simp [hj]

theorem seedJob_titles_mono (rows : List JobTitleRow) (st : DB × Nat) {j : JobTitle}
    (hj : j ∈ st.1.job_titles) : j ∈ (rows.foldl seedJobStep st).1.job_titles := by
  induction rows generalizing st with
  | nil => exact hj
  | cons r rest ih => exact ih _ (seedJobStep_titles_mono st r hj)

theorem seedJobStep_covers (st : DB × Nat) (r : JobTitleRow)
    (h : pyStrip r.canonical_title ≠ "") :
    ∃ j ∈ (seedJobStep st r).1.job_titles, j.canonical_title = pyStrip r.canonical_title := by
  simp only [seedJobStep]
  split_ifs with hblank hex
  · exact absurd hblank h
  · simpa [List.any_eq_true] using hex
  · refine ⟨{ id := nextJobTitleId st.1
              canonical_title := pyStrip r.canonical_title
              category := pyStrip r.category
              seniority_level := pyStrip r.seniority_level
              aliases := stripOrNone r.aliases }, ?_, rfl⟩
    simp

theorem seedJob_covers (rows : List JobTitleRow) (st : DB × Nat) :
    ∀ r ∈ rows, pyStrip r.canonical_title ≠ "" →
      ∃ j ∈ (rows.foldl seedJobStep st).1.job_titles,
        j.canonical_title = pyStrip r.canonical_title := by
  induction rows generalizing st with
  | nil => simp
  | cons r rest ih =>
    intro x hx hkey
    rcases List.mem_cons.mp hx with rfl | hx'
    · obtain ⟨j, hj, hcode⟩ := seedJobStep_covers st x hkey
      exact ⟨j, seedJob_titles_mono rest _ hj, hcode⟩
    · exact ih (seedJobStep st r) x hx' hkey

theorem seedJob_noop (rows : List JobTitleRow) (db : DB) (n : Nat)
    (h : ∀ r ∈ rows, pyStrip r.canonical_title = "" ∨
      ∃ j ∈ db.job_titles, j.canonical_title = pyStrip r.canonical_title) :
    rows.foldl seedJobStep (db, n) = (db, n) := by
  induction rows with
  | nil => rfl
  | cons r rest ih =>
    have hstep : seedJobStep (db, n) r = (db, n) := by
      rcases h r (by simp) with hb | hex
      · simp [seedJobStep, hb]
      · have hany : db.job_titles.any
            (fun j => decide (j.canonical_title = pyStrip r.canonical_title)) = true := by
          simpa [List.any_eq_true] using hex
        by_cases hb2 : pyStrip r.canonical_title = ""
        · simp [seedJobStep, hb2]
        · simp [seedJobStep, hb2, hany]
    rw [List.foldl_cons, hstep]
    exact ih (fun r hr => h r (by simp [hr]))

/-! ## Mutation and query helper lemmas -/

theorem pyOr_of_not_truthy {o : Option String} (h : truthy o = false) (d : String) :
    pyOr o d = d := by
  cases o with
  | none => rfl
  | some s =>
    have hs : s = "" := by simpa [truthy] using h
    simp [pyOr, hs]

theorem pyOrNone_of_not_truthy {o : Option String} (h : truthy o = false) :
    pyOrNone o = none := by
  cases o with
  | none => rfl
  | some s =>
    have hs : s = "" := by simpa [truthy] using h
    simp [pyOrNone, hs]

/-- Shape of a successful creation: with both required fields truthy, a
parseable `job_title_id`, a parseable-or-absent `sample_size`, and both
references present, the route appends exactly the constructed record. -/
theorem salary_band_new_success_eq (form : CreateForm) (today : Nat) (db : DB)
    (jtid : Int) (ss : Option Int)
    (h1 : truthy form.job_title_id = true)
    (h2 : truthy form.experience_band_code = true)
    (h3 : pythonInt? (form.job_title_id.getD "") = some jtid)
    (h4 : parseSampleSize (pyOrNone form.sample_size) = .ok ss)
    (h5 : db.job_titles.any (fun j => decide (j.id = jtid)) = true)
    (h6 : db.experience_bands.any
      (fun b => decide (b.code = form.experience_band_code.getD "")) = true) :
    salary_band_new form today db =
      .success { db with salary_bands := db.salary_bands ++ [mkSalaryBand form today db jtid ss] } := by
  simp [salary_band_new, h1, h2, h3, h4, h5, h6]

theorem mem_joinSalaryBands (db : DB) (t : SalaryBand × JobTitle × ExperienceBand) :
    t ∈ joinSalaryBands db ↔
      t.1 ∈ db.salary_bands ∧ t.2.1 ∈ db.job_titles ∧ t.2.2 ∈ db.experience_bands ∧
      t.2.1.id = t.1.job_title_id ∧ t.2.2.code = t.1.experience_band_code := by
  obtain ⟨sb, jt, eb⟩ := t
  simp only [joinSalaryBands, List.mem_flatMap, List.mem_map, List.mem_filter]
  constructor
  · rintro ⟨sb', hsb', jt', ⟨hjt', hjid⟩, eb', ⟨heb', hkey⟩, heq⟩
    obtain ⟨rfl, rfl, rfl⟩ : sb' = sb ∧ jt' = jt ∧ eb' = eb := by
      simpa [Prod.ext_iff] using heq
    exact ⟨hsb', hjt', heb', of_decide_eq_true hjid, of_decide_eq_true hkey⟩
  · rintro ⟨hsb, hjt, heb, hjid, hkey⟩
    exact ⟨sb, hsb, jt, ⟨hjt, decide_eq_true hjid⟩, eb, ⟨heb, decide_eq_true hkey⟩, rfl⟩

/-! ## Concrete fixtures -/

/-- A seeded job title (cf. the end-to-end example of the spec). -/
def jtBackend : JobTitle :=
  { id := 1, canonical_title := "Backend Engineer", category := "Engineering",
    seniority_level := "Senior", aliases := none }

/-- A second job title whose name does not contain "ack". -/
def jtAccountant : JobTitle :=
  { id := 2, canonical_title := "Accountant", category := "Finance",
    seniority_level := "Mid", aliases := none }

/-- A seeded experience band. -/
def ebSenior : ExperienceBand :=
  { code := "SNR", label := "Senior", min_years := some 5, max_years := some 10,
    default_seniority_level := none, description := none }

/-- A database with one job title and one experience band. -/
def dbSeeded : DB :=
  { job_titles := [jtBackend], experience_bands := [ebSenior], salary_bands := [] }

/-- A database with two job titles. -/
def dbTwoTitles : DB :=
  { job_titles := [jtBackend, jtAccountant], experience_bands := [ebSenior],
    salary_bands := [] }

/-- A job title whose name contains no underscore. -/
def jtAB : JobTitle :=
  { id := 1, canonical_title := "AB", category := "Cat", seniority_level := "Mid",
    aliases := none }

/-- A database with the single job title `jtAB`. -/
def dbAB : DB := { job_titles := [jtAB], experience_bands := [], salary_bands := [] }

/-- A form with every field absent. -/
def emptyForm : CreateForm :=
  { job_title_id := none, experience_band_code := none, location := none,
    industry := none, company_size_band := none, currency := none,
    salary_min := none, salary_max := none, salary_avg := none,
    sample_size := none, source_type := none, confidence_level := none,
    notes := none }

/-! ## Claims -/

/-- C7: a source row whose natural-key field is blank after trimming is
skipped entirely by seeding: no error, no insert, no change to the reported
inserted count — for both the experience-band and the job-title seeder. -/
theorem C7_blank_key_skipped (row : ExpBandRow) (rest : List ExpBandRow) (db : DB)
    (jrow : JobTitleRow) (jrest : List JobTitleRow) (db' : DB)
    (h1 : pyStrip (row.experience_band_code.getD "") = "")
    (h2 : pyStrip jrow.canonical_title = "") :
    seed_experience_bands (row :: rest) db = seed_experience_bands rest db ∧
    seed_job_titles (jrow :: jrest) db' = seed_job_titles jrest db' := by
  constructor
  · simp only [seed_experience_bands, List.foldl_cons]
    congr 1
    simp [seedExpStep, h1]
  · simp only [seed_job_titles, List.foldl_cons]
    congr 1
    simp [seedJobStep, h2]

/-- Witness for C7 at a whitespace-only experience-band code and a
whitespace-only canonical title. -/
theorem C7_blank_key_skipped_witness :
    seed_experience_bands
        [{ experience_band_code := some "  ", label := some "x", min_years := none,
           max_years := none, default_seniority_level := none, description := none }]
        dbSeeded =
      seed_experience_bands [] dbSeeded ∧
    seed_job_titles
        [{ canonical_title := " ", category := "Engineering", seniority_level := "Mid",
           aliases := none }]
        dbSeeded =
      seed_job_titles [] dbSeeded :=
  C7_blank_key_skipped _ [] dbSeeded _ [] dbSeeded (by decide) (by decide)

/-- C2: a create request whose `job_title_id` or `experience_band_code` is
missing or blank fails validation: nothing is persisted (the database is
returned unchanged, so the row count is unchanged) and the caller receives
exactly the reason string "Job title and experience band are required.". -/
theorem C2_required_fields_validation (form : CreateForm) (today : Nat) (db : DB)
    (h : truthy form.job_title_id = false ∨ truthy form.experience_band_code = false) :
    salary_band_new form today db =
      .failure "Job title and experience band are required." db := by
  rcases h with h | h <;> simp [salary_band_new, h]

/-- Witness for C2 at a form with a present experience band but an absent
job title. -/
theorem C2_required_fields_validation_witness :
    salary_band_new { emptyForm with experience_band_code := some "SNR" } 0 dbSeeded =
      .failure "Job title and experience band are required." dbSeeded :=
  C2_required_fields_validation _ 0 dbSeeded (Or.inl (by decide))

/-- A request with valid references and a non-numeric `sample_size`. -/
def formBadSample : CreateForm :=
  { emptyForm with
    job_title_id := some "1"
    experience_band_code := some "SNR"
    sample_size := some "abc" }

/-- C9: a create request with valid required fields (both references exist in
the database) and `sample_size = "abc"` raises an uncaught `ValueError` from
the unguarded `int(sample_size)` instead of storing null; nothing is
persisted. -/
theorem C9_sample_size_unguarded :
    salary_band_new formBadSample 0 dbSeeded = .raised .valueError dbSeeded := by
  decide

/-- C10: a `job_title_id` filter value that is non-empty but not parseable as
an integer makes the salary-band listing raise an uncaught `ValueError` from
the unguarded `int(job_title_id)`, rather than return a (filtered or
unfiltered) result. -/
theorem C10_filter_value_error :
    salary_bands_list (some "abc") none dbSeeded = .error .valueError := rfl

/-- C1: seeding is idempotent by natural key: re-running either seeder on
the same source over the database produced by the first run inserts no new
rows (reported count 0) and leaves the database — hence the final row
count — unchanged, because every row whose natural key already exists is
skipped without update and without error. -/
theorem C1_seeding_idempotent (expRows : List ExpBandRow) (jtRows : List JobTitleRow)
    (db db' : DB) :
    seed_experience_bands expRows (seed_experience_bands expRows db).1 =
      ((seed_experience_bands expRows db).1, 0) ∧
    seed_job_titles jtRows (seed_job_titles jtRows db').1 =
      ((seed_job_titles jtRows db').1, 0) := by
  constructor
  · simp only [seed_experience_bands]
    apply seedExp_noop
    intro r hr
    by_cases hk : pyStrip (r.experience_band_code.getD "") = ""
    · exact Or.inl hk
    · exact Or.inr (seedExp_covers expRows (db, 0) r hr hk)
  · simp only [seed_job_titles]
    apply seedJob_noop
    intro r hr
    by_cases hk : pyStrip r.canonical_title = ""
    · exact Or.inl hk
    · exact Or.inr (seedJob_covers jtRows (db', 0) r hr hk)

/-- C3: every salary band the create route persists references existing
rows — on success the appended record's `job_title_id` and
`experience_band_code` match a stored job title and experience band — and a
create call with a dangling reference persists nothing: the commit rejects it
with the distinct, detectable `IntegrityError`, leaving the database
unchanged. -/
theorem C3_referential_integrity (form : CreateForm) (today : Nat) (db : DB) :
    (∀ db2, salary_band_new form today db = .success db2 →
      ∃ r, db2.salary_bands = db.salary_bands ++ [r] ∧
        (∃ jt ∈ db.job_titles, jt.id = r.job_title_id) ∧
        (∃ eb ∈ db.experience_bands, eb.code = r.experience_band_code)) ∧
    (∀ jtid ss,
      truthy form.job_title_id = true → truthy form.experience_band_code = true →
      pythonInt? (form.job_title_id.getD "") = some jtid →
      parseSampleSize (pyOrNone form.sample_size) = .ok ss →
      ((∀ jt ∈ db.job_titles, jt.id ≠ jtid) ∨
        (∀ eb ∈ db.experience_bands, eb.code ≠ form.experience_band_code.getD "")) →
      salary_band_new form today db = .raised .integrityError db) := by
  constructor
  · intro db2 h
    by_cases h1 : truthy form.job_title_id = true
    case neg =>
      have h1' : truthy form.job_title_id = false := by simpa using h1
      simp [salary_band_new, h1'] at h
    by_cases h2 : truthy form.experience_band_code = true
    case neg =>
      have h2' : truthy form.experience_band_code = false := by simpa using h2
      simp [salary_band_new, h2'] at h
    cases hji : pythonInt? (form.job_title_id.getD "") with
    | none => simp [salary_band_new, h1, h2, hji] at h
    | some jtid =>
      cases hss : parseSampleSize (pyOrNone form.sample_size) with
      | error e => simp [salary_band_new, h1, h2, hji, hss] at h
      | ok ss =>
        by_cases hfk : (db.job_titles.any (fun j => decide (j.id = jtid)) &&
            db.experience_bands.any
              (fun b => decide (b.code = form.experience_band_code.getD ""))) = true
        · obtain ⟨h5, h6⟩ := Bool.and_eq_true_iff.mp hfk
          rw [salary_band_new_success_eq form today db jtid ss h1 h2 hji hss h5 h6] at h
          injection h with hdb
          refine ⟨mkSalaryBand form today db jtid ss, by rw [← hdb], ?_, ?_⟩
          · obtain ⟨j, hj, hjid⟩ := List.any_eq_true.mp h5
            exact ⟨j, hj, of_decide_eq_true hjid⟩
          · obtain ⟨b, hb, hcode⟩ := List.any_eq_true.mp h6
            exact ⟨b, hb, of_decide_eq_true hcode⟩
        · have hfk' : (db.job_titles.any (fun j => decide (j.id = jtid)) &&
              db.experience_bands.any
                (fun b => decide (b.code = form.experience_band_code.getD ""))) = false := by
            simpa using hfk
          simp [salary_band_new, h1, h2, hji, hss, hfk'] at h
  · intro jtid ss h1 h2 h3 h4 hdangling
    have hfk : (db.job_titles.any (fun j => decide (j.id = jtid)) &&
        db.experience_bands.any
          (fun b => decide (b.code = form.experience_band_code.getD ""))) = false := by
      rcases hdangling with hd | hd
      · have hfalse : db.job_titles.any (fun j => decide (j.id = jtid)) = false := by
          simp only [List.any_eq_false]
          intro j hj
          simpa using hd j hj
        simp [hfalse]
      · have hfalse : db.experience_bands.any
            (fun b => decide (b.code = form.experience_band_code.getD "")) = false := by
          simp only [List.any_eq_false]
          intro b hb
          simpa using hd b hb
        simp [hfalse]
    simp [salary_band_new, h1, h2, h3, h4, hfk]

/-- A request whose `job_title_id` matches no stored job title. -/
def formDangling : CreateForm :=
  { emptyForm with
    job_title_id := some "5"
    experience_band_code := some "SNR" }

/-- Witness for C3 at `formDangling`: the commit rejects the dangling
reference and the database is unchanged. -/
theorem C3_referential_integrity_witness :
    salary_band_new formDangling 0 dbSeeded = .raised .integrityError dbSeeded :=
  (C3_referential_integrity formDangling 0 dbSeeded).2 5 none (by decide) (by decide)
    (by decide) rfl (Or.inl (by decide))

/-- C4: on a create request with valid required fields, each salary text
field that is non-empty but unparsable as a number is stored as null without
raising and without failing the creation, while the parsed `job_title_id` and
the `experience_band_code` are stored exactly as given. -/
theorem C4_lenient_salary_parse (form : CreateForm) (today : Nat) (db : DB)
    (jtid : Int) (ss : Option Int)
    (h1 : truthy form.job_title_id = true)
    (h2 : truthy form.experience_band_code = true)
    (h3 : pythonInt? (form.job_title_id.getD "") = some jtid)
    (h4 : parseSampleSize (pyOrNone form.sample_size) = .ok ss)
    (h5 : db.job_titles.any (fun j => decide (j.id = jtid)) = true)
    (h6 : db.experience_bands.any
      (fun b => decide (b.code = form.experience_band_code.getD "")) = true) :
    ∃ r, salary_band_new form today db =
        .success { db with salary_bands := db.salary_bands ++ [r] } ∧
      r.job_title_id = jtid ∧
      r.experience_band_code = form.experience_band_code.getD "" ∧
      (∀ v, form.salary_min = some v → v ≠ "" → pythonFloat? v = none → r.salary_min = none) ∧
      (∀ v, form.salary_max = some v → v ≠ "" → pythonFloat? v = none → r.salary_max = none) ∧
      (∀ v, form.salary_avg = some v → v ≠ "" → pythonFloat? v = none → r.salary_avg = none) := by
  refine ⟨mkSalaryBand form today db jtid ss,
    salary_band_new_success_eq form today db jtid ss h1 h2 h3 h4 h5 h6, rfl, rfl, ?_, ?_, ?_⟩
  all_goals
    intro v hv hne hparse
    simp [mkSalaryBand, make_decimal, pyOrNone, hv, hne, hparse]

/-- The C4 request: valid references, `salary_min = "abc"`. -/
def formAbcSalary : CreateForm :=
  { emptyForm with
    job_title_id := some "1"
    experience_band_code := some "SNR"
    salary_min := some "abc" }

/-- Witness for C4 at `formAbcSalary` over `dbSeeded`. -/
theorem C4_lenient_salary_parse_witness :
    ∃ r, salary_band_new formAbcSalary 3 dbSeeded =
        .success { dbSeeded with salary_bands := dbSeeded.salary_bands ++ [r] } ∧
      r.job_title_id = 1 ∧
      r.experience_band_code = formAbcSalary.experience_band_code.getD "" ∧
      (∀ v, formAbcSalary.salary_min = some v → v ≠ "" → pythonFloat? v = none →
        r.salary_min = none) ∧
      (∀ v, formAbcSalary.salary_max = some v → v ≠ "" → pythonFloat? v = none →
        r.salary_max = none) ∧
      (∀ v, formAbcSalary.salary_avg = some v → v ≠ "" → pythonFloat? v = none →
        r.salary_avg = none) :=
  C4_lenient_salary_parse formAbcSalary 3 dbSeeded 1 none (by decide) (by decide)
    (by decide) rfl (by decide) (by decide)

/-- C8: on a successful creation, a blank `location` is stored as "Malta", a
blank `currency` as "EUR", every other blank optional field as null, and
`last_updated` is always the creation-time current date regardless of the
request. -/
theorem C8_defaults (form : CreateForm) (today : Nat) (db : DB)
    (jtid : Int) (ss : Option Int)
    (h1 : truthy form.job_title_id = true)
    (h2 : truthy form.experience_band_code = true)
    (h3 : pythonInt? (form.job_title_id.getD "") = some jtid)
    (h4 : parseSampleSize (pyOrNone form.sample_size) = .ok ss)
    (h5 : db.job_titles.any (fun j => decide (j.id = jtid)) = true)
    (h6 : db.experience_bands.any
      (fun b => decide (b.code = form.experience_band_code.getD "")) = true) :
    ∃ r, salary_band_new form today db =
        .success { db with salary_bands := db.salary_bands ++ [r] } ∧
      (truthy form.location = false → r.location = "Malta") ∧
      (truthy form.currency = false → r.currency = "EUR") ∧
      (truthy form.industry = false → r.industry = none) ∧
      (truthy form.company_size_band = false → r.company_size_band = none) ∧
      (truthy form.salary_min = false → r.salary_min = none) ∧
      (truthy form.salary_max = false → r.salary_max = none) ∧
      (truthy form.salary_avg = false → r.salary_avg = none) ∧
      (truthy form.sample_size = false → r.sample_size = none) ∧
      (truthy form.source_type = false → r.source_type = none) ∧
      (truthy form.confidence_level = false → r.confidence_level = none) ∧
      (truthy form.notes = false → r.notes = none) ∧
      r.last_updated = today := by
  refine ⟨mkSalaryBand form today db jtid ss,
    salary_band_new_success_eq form today db jtid ss h1 h2 h3 h4 h5 h6,
    ?_, ?_, ?_, ?_, ?_, ?_, ?_, ?_, ?_, ?_, ?_, rfl⟩
  · intro h; simp [mkSalaryBand, pyOr_of_not_truthy h]
  · intro h; simp [mkSalaryBand, pyOr_of_not_truthy h]
  · intro h; simp [mkSalaryBand, pyOrNone_of_not_truthy h]
  · intro h; simp [mkSalaryBand, pyOrNone_of_not_truthy h]
  · intro h; simp [mkSalaryBand, make_decimal, pyOrNone_of_not_truthy h]
  · intro h; simp [mkSalaryBand, make_decimal, pyOrNone_of_not_truthy h]
  · intro h; simp [mkSalaryBand, make_decimal, pyOrNone_of_not_truthy h]
  · intro h
    rw [pyOrNone_of_not_truthy h] at h4
    injection h4 with h4'
    simp [mkSalaryBand, ← h4']
  · intro h; simp [mkSalaryBand, pyOrNone_of_not_truthy h]
  · intro h; simp [mkSalaryBand, pyOrNone_of_not_truthy h]
  · intro h; simp [mkSalaryBand, pyOrNone_of_not_truthy h]

/-- The C8 request: only the required fields are supplied. -/
def formOnlyRequired : CreateForm :=
  { emptyForm with
    job_title_id := some "1"
    experience_band_code := some "SNR" }

/-- Witness for C8 at `formOnlyRequired` over `dbSeeded` with today = 7. -/
theorem C8_defaults_witness :
    ∃ r, salary_band_new formOnlyRequired 7 dbSeeded =
        .success { dbSeeded with salary_bands := dbSeeded.salary_bands ++ [r] } ∧
      (truthy formOnlyRequired.location = false → r.location = "Malta") ∧
      (truthy formOnlyRequired.currency = false → r.currency = "EUR") ∧
      (truthy formOnlyRequired.industry = false → r.industry = none) ∧
      (truthy formOnlyRequired.company_size_band = false → r.company_size_band = none) ∧
      (truthy formOnlyRequired.salary_min = false → r.salary_min = none) ∧
      (truthy formOnlyRequired.salary_max = false → r.salary_max = none) ∧
      (truthy formOnlyRequired.salary_avg = false → r.salary_avg = none) ∧
      (truthy formOnlyRequired.sample_size = false → r.sample_size = none) ∧
      (truthy formOnlyRequired.source_type = false → r.source_type = none) ∧
      (truthy formOnlyRequired.confidence_level = false → r.confidence_level = none) ∧
      (truthy formOnlyRequired.notes = false → r.notes = none) ∧
      r.last_updated = 7 :=
  C8_defaults formOnlyRequired 7 dbSeeded 1 none (by decide) (by decide) (by decide)
    rfl (by decide) (by decide)

/-- Counterexample to C5 as stated: with the non-empty search "_", the
listing returns the job title "AB" although "AB" does not contain "_" as a
(case-insensitive) substring — the unescaped ILIKE treats `_` in the search
as a single-character wildcard. -/
theorem C5_counterexample_wildcard :
    pyStrip "_" ≠ "" ∧
    job_titles_list "_" dbAB = [jtAB] ∧
    containsCI "_".data jtAB.canonical_title.data = false := by
  refine ⟨by decide, ?_, by decide⟩
  decide

/-- C5 (amended): listing job titles trims the query; an empty trimmed query
returns all rows, and a non-empty trimmed query free of the LIKE wildcard
characters `%` and `_` returns exactly the rows whose `canonical_title`
contains it as a case-insensitive substring (in general the match is
`ILIKE '%' + search + '%'`, so wildcards in the search are interpreted); the
result is always ordered ascending by `(category, canonical_title)`. -/
theorem C5_job_titles_search (q : String) (db : DB)
    (hw : ∀ c ∈ (pyStrip q).data, c ≠ '%' ∧ c ≠ '_') :
    (job_titles_list q db).Pairwise (fun a b => jtLe a b = true) ∧
    (pyStrip q = "" → (job_titles_list q db).Perm db.job_titles) ∧
    (pyStrip q ≠ "" → (job_titles_list q db).Perm
      (db.job_titles.filter
        (fun jt => containsCI (pyStrip q).data jt.canonical_title.data))) := by
  refine ⟨?_, ?_, ?_⟩
  · exact pairwise_sortBy jtLe (fun x y z => lexLe_trans _ _)
      (fun x y => lexLe_total _ _ x y) _
  · intro h
    simp only [job_titles_list, if_pos h]
    exact sortBy_perm jtLe db.job_titles
  · intro h
    have hpred : ∀ jt ∈ db.job_titles,
        likeMatch ("%" ++ pyStrip q ++ "%").data jt.canonical_title.data =
          containsCI (pyStrip q).data jt.canonical_title.data := by
      intro jt _
      have hdata : ("%" ++ pyStrip q ++ "%").data = '%' :: ((pyStrip q).data ++ ['%']) := by
        rw [String.data_append, String.data_append]
        rfl
      rw [hdata, likeMatch_iff_containsCI _ hw]
    simp only [job_titles_list, if_neg h]
    rw [List.filter_congr hpred]
    exact sortBy_perm jtLe _

/-- Witness for C5 at the wildcard-free search "ack" over a database with the
titles "Backend Engineer" and "Accountant". -/
theorem C5_job_titles_search_witness :
    (job_titles_list "ack" dbTwoTitles).Pairwise (fun a b => jtLe a b = true) ∧
    (pyStrip "ack" = "" → (job_titles_list "ack" dbTwoTitles).Perm dbTwoTitles.job_titles) ∧
    (pyStrip "ack" ≠ "" → (job_titles_list "ack" dbTwoTitles).Perm
      (dbTwoTitles.job_titles.filter
        (fun jt => containsCI (pyStrip "ack").data jt.canonical_title.data))) :=
  C5_job_titles_search "ack" dbTwoTitles (by decide)

/-- C6: listing salary bands inner-joins the three tables on the declared
foreign keys, applies the `job_title_id` equality filter exactly when that
parameter is supplied (present and non-empty, parseable as an integer) and
the `experience_band_code` equality filter exactly when that parameter is
supplied, and orders the result ascending by
`(canonical_title, experience_band_code)`. -/
theorem C6_salary_bands_filters (jts ecs : Option String) (db : DB)
    (hjt : truthy jts = true → (pythonInt? (jts.getD "")).isSome = true) :
    ∃ l, salary_bands_list jts ecs db = .ok l ∧
      (∀ t, t ∈ l ↔
        (t.1 ∈ db.salary_bands ∧ t.2.1 ∈ db.job_titles ∧ t.2.2 ∈ db.experience_bands ∧
          t.2.1.id = t.1.job_title_id ∧ t.2.2.code = t.1.experience_band_code ∧
          (truthy jts = true → some t.1.job_title_id = pythonInt? (jts.getD "")) ∧
          (truthy ecs = true → t.1.experience_band_code = ecs.getD ""))) ∧
      l.Pairwise (fun a b => sbLe a b = true) := by
  have hsort : ∀ l2, (sortBy sbLe l2).Pairwise (fun a b => sbLe a b = true) :=
    pairwise_sortBy sbLe (fun x y z => lexLe_trans _ _) (fun x y => lexLe_total _ _ x y)
  by_cases h1 : truthy jts = true
  · obtain ⟨n, hn⟩ := Option.isSome_iff_exists.mp (hjt h1)
    by_cases h2 : truthy ecs = true
    · refine ⟨sortBy sbLe (((joinSalaryBands db).filter
          (fun t => decide (t.1.job_title_id = n))).filter
          (fun t => decide (t.1.experience_band_code = ecs.getD ""))),
        by simp [salary_bands_list, h1, h2, hn], ?_, hsort _⟩
      intro t
      rw [mem_sortBy]
      simp only [List.mem_filter, mem_joinSalaryBands, h1, h2, hn, forall_const,
        decide_eq_true_eq, Option.some.injEq]
      tauto
    · refine ⟨sortBy sbLe ((joinSalaryBands db).filter
          (fun t => decide (t.1.job_title_id = n))),
        by simp [salary_bands_list, h1, h2, hn], ?_, hsort _⟩
      intro t
      rw [mem_sortBy]
      simp only [List.mem_filter, mem_joinSalaryBands, h1, h2, hn, forall_const,
        decide_eq_true_eq, Option.some.injEq]
      tauto
  · by_cases h2 : truthy ecs = true
    · refine ⟨sortBy sbLe ((joinSalaryBands db).filter
          (fun t => decide (t.1.experience_band_code = ecs.getD ""))),
        by simp [salary_bands_list, h1, h2], ?_, hsort _⟩
      intro t
      rw [mem_sortBy]
      simp only [List.mem_filter, mem_joinSalaryBands, h1, h2, forall_const,
        decide_eq_true_eq]
      tauto
    · refine ⟨sortBy sbLe (joinSalaryBands db),
        by simp [salary_bands_list, h1, h2], ?_, hsort _⟩
      intro t
      rw [mem_sortBy]
      simp only [mem_joinSalaryBands, h1, h2]
      tauto

/-- A salary band referencing `jtBackend` and `ebSenior`. -/
def sbExample : SalaryBand :=
  { id := 1, job_title_id := 1, experience_band_code := "SNR", location := "Malta",
    industry := none, company_size_band := none, currency := "EUR",
    salary_min := some (.finite 40000), salary_max := some (.finite 60000),
    salary_avg := none, sample_size := none, source_type := none,
    confidence_level := none, last_updated := 0, notes := none }

/-- A database with one salary band and its two referenced rows. -/
def dbWithBand : DB :=
  { job_titles := [jtBackend], experience_bands := [ebSenior],
    salary_bands := [sbExample] }

/-- Witness for C6 at the supplied filter `job_title_id = "1"` with no
experience-band filter, over `dbWithBand`. -/
theorem C6_salary_bands_filters_witness :
    ∃ l, salary_bands_list (some "1") none dbWithBand = .ok l ∧
      (∀ t, t ∈ l ↔
        (t.1 ∈ dbWithBand.salary_bands ∧ t.2.1 ∈ dbWithBand.job_titles ∧
          t.2.2 ∈ dbWithBand.experience_bands ∧
          t.2.1.id = t.1.job_title_id ∧ t.2.2.code = t.1.experience_band_code ∧
          (truthy (some "1") = true → some t.1.job_title_id = pythonInt? ((some "1").getD "")) ∧
          (truthy (none : Option String) = true →
            t.1.experience_band_code = (none : Option String).getD ""))) ∧
      l.Pairwise (fun a b => sbLe a b = true) :=
  C6_salary_bands_filters (some "1") none dbWithBand (by decide)

end SalaryCheck
